import Mathlib

/-!
Verification of the toolchain-resolution and dependency-cache-key subsystem
of the maven-actions repository (CacheManager, EnvironmentManager,
ManifestScanner logic), shallowly embedded in Lean 4.

JavaScript strings are modelled as Lean `String`s (all inputs of interest are
ASCII), byte sequences as `List Nat` with values below 256, machine 32-bit
arithmetic as `Nat` arithmetic reduced modulo `2^32`, and the external
collaborators (process execution, the cache backend, the tool cache, the
filesystem) as explicit parameters together with an effect trace.
-/

set_option maxRecDepth 4000

deriving instance DecidableEq for Except

namespace MavenActions

/-! ## SHA-256 (crypto.createHash('sha256'), FIPS 180-4)

Executable implementation over byte lists; words are `Nat`s kept below `2^32`.
-/

def w32 (x : Nat) : Nat := x % 4294967296

def rotr32 (n x : Nat) : Nat := w32 ((x >>> n) ||| (x <<< (32 - n)))

def shaCh (x y z : Nat) : Nat := (x &&& y) ^^^ ((x ^^^ 4294967295) &&& z)

def shaMaj (x y z : Nat) : Nat := (x &&& y) ^^^ (x &&& z) ^^^ (y &&& z)

def bigSigma0 (x : Nat) : Nat := rotr32 2 x ^^^ rotr32 13 x ^^^ rotr32 22 x

def bigSigma1 (x : Nat) : Nat := rotr32 6 x ^^^ rotr32 11 x ^^^ rotr32 25 x

def smallSigma0 (x : Nat) : Nat := rotr32 7 x ^^^ rotr32 18 x ^^^ (x >>> 3)

def smallSigma1 (x : Nat) : Nat := rotr32 17 x ^^^ rotr32 19 x ^^^ (x >>> 10)

/-- The 64 round constants of SHA-256 (FIPS 180-4 §4.2.2), in decimal. -/
def shaK : List Nat :=
  [1116352408, 1899447441, 3049323471, 3921009573,
   961987163, 1508970993, 2453635748, 2870763221,
   3624381080, 310598401, 607225278, 1426881987,
   1925078388, 2162078206, 2614888103, 3248222580,
   3835390401, 4022224774, 264347078, 604807628,
   770255983, 1249150122, 1555081692, 1996064986,
   2554220882, 2821834349, 2952996808, 3210313671,
   3336571891, 3584528711, 113926993, 338241895,
   666307205, 773529912, 1294757372, 1396182291,
   1695183700, 1986661051, 2177026350, 2456956037,
   2730485921, 2820302411, 3259730800, 3345764771,
   3516065817, 3600352804, 4094571909, 275423344,
   430227734, 506948616, 659060556, 883997877,
   958139571, 1322822218, 1537002063, 1747873779,
   1955562222, 2024104815, 2227730452, 2361852424,
   2428436474, 2756734187, 3204031479, 3329325298]

/-- The initial hash state of SHA-256 (FIPS 180-4 §5.3.3), in decimal. -/
def shaInit : List Nat :=
  [1779033703, 3144134277, 1013904242, 2773480762,
   1359893119, 2600822924, 528734635, 1541459225]

/-- One step of message-schedule extension: appends word `t` (`t = ws.length`). -/
def stepW (ws : List Nat) : List Nat :=
  let t := ws.length
  ws ++ [w32 (smallSigma1 (ws.getD (t - 2) 0) + ws.getD (t - 7) 0 +
              smallSigma0 (ws.getD (t - 15) 0) + ws.getD (t - 16) 0)]

def buildW (ws : List Nat) : Nat → List Nat
  | 0 => ws
  | n + 1 => buildW (stepW ws) n

def round256 (st : List Nat) (k w : Nat) : List Nat :=
  match st with
  | [a, b, c, d, e, f, g, h] =>
    let t1 := w32 (h + bigSigma1 e + shaCh e f g + k + w)
    let t2 := w32 (bigSigma0 a + shaMaj a b c)
    [w32 (t1 + t2), a, b, c, w32 (d + t1), e, f, g]
  | other => other

def compressBlock (st : List Nat) (block : List Nat) : List Nat :=
  let ws := buildW block 48
  let fin := (shaK.zip ws).foldl (fun s kw => round256 s kw.1 kw.2) st
  (st.zip fin).map (fun p => w32 (p.1 + p.2))

/-- Big-endian byte expansion of `n` to `k` bytes. -/
def beBytes (n : Nat) : Nat → List Nat
  | 0 => []
  | k + 1 => beBytes (n / 256) k ++ [n % 256]

/-- FIPS 180-4 padding: 0x80, zeros to 56 mod 64, then the 64-bit bit length. -/
def padMessage (msg : List Nat) : List Nat :=
  let len := msg.length
  let zeros := (56 + 64 - (len + 1) % 64) % 64
  msg ++ [128] ++ List.replicate zeros 0 ++ beBytes (len * 8) 8

def bytesToWords : List Nat → List Nat
  | b0 :: b1 :: b2 :: b3 :: rest => (((b0 * 256 + b1) * 256 + b2) * 256 + b3) :: bytesToWords rest
  | _ => []

def chunk16F : Nat → List Nat → List (List Nat)
  | 0, _ => []
  | _, [] => []
  | fuel + 1, w :: rest => ((w :: rest).take 16) :: chunk16F fuel ((w :: rest).drop 16)

/-- Split a word list into 16-word blocks (the fuel `ws.length` never runs out,
since every recursive call removes at least one element). -/
def chunk16 (ws : List Nat) : List (List Nat) := chunk16F ws.length ws

/-- SHA-256 digest of a byte list, as the list of eight 32-bit state words. -/
def sha256Words (msg : List Nat) : List Nat :=
  (chunk16 (bytesToWords (padMessage msg))).foldl compressBlock shaInit

def hexDigit (n : Nat) : Char := if n < 10 then Char.ofNat (48 + n) else Char.ofNat (87 + n)

def wordToHex (w : Nat) : List Char :=
  (beBytes w 4).flatMap (fun b => [hexDigit (b / 16), hexDigit (b % 16)])

/-- Lowercase hex encoding of the SHA-256 digest, as `digest('hex')` yields. -/
def sha256Hex (msg : List Nat) : String :=
  String.mk ((sha256Words msg).flatMap wordToHex)

/-- Bytes of an ASCII string (UTF-8 agrees with the code point below 128). -/
def strBytes (s : String) : List Nat := s.data.map Char.toNat

/-- JavaScript `s.startsWith(pre)`. -/
def strStartsWith (s pre : String) : Bool := pre.data.isPrefixOf s.data

/-- JavaScript `s.trim()`: strip whitespace from both ends. -/
def strTrim (s : String) : String :=
  String.mk (((s.data.dropWhile Char.isWhitespace).reverse.dropWhile Char.isWhitespace).reverse)

/-! ## Effect traces

The external collaborators of the core (§6 of the spec): process execution,
download / tool cache, environment registration, filesystem, cache backend,
run state. Each model function returns the ordered list of collaborator
calls it makes.
-/

inductive Effect where
  | procExec (cmd : String)
  | netDownload (url : String)
  | toolcacheFind (tool version : String)
  | toolcacheStore (tool version : String)
  | addPath (p : String)
  | exportVar (name value : String)
  | fsReadManifest (p : String)
  | dirStat (p : String)
  | stateRead (name : String)
  | stateWrite (name value : String)
  | backendRestore (primary : String) (fallbacks : List String)
  | backendSave (key : String)
  deriving Repr, DecidableEq

def Effect.isBackendSave : Effect → Bool
  | .backendSave _ => true
  | _ => false

def Effect.isBackendCall : Effect → Bool
  | .backendSave _ => true
  | .backendRestore _ _ => true
  | _ => false

def Effect.isProcExec : Effect → Bool
  | .procExec _ => true
  | _ => false

def Effect.isNetDownload : Effect → Bool
  | .netDownload _ => true
  | _ => false

def Effect.isInstallStep : Effect → Bool
  | .netDownload _ => true
  | .toolcacheFind _ _ => true
  | .toolcacheStore _ _ => true
  | .addPath _ => true
  | .exportVar _ _ => true
  | _ => false

/-! ## CacheManager.generateCacheKey / generateRestoreKeys (cache-manager.js 100-138)

`hashInput` is the template literal
`` `${os}-java${javaVersion}-maven${mavenVersion}-${pomContents.join('')}` ``;
the key is `maven-deps-` followed by the hex SHA-256 of it.
-/

def generateCacheKey (osId javaVersion mavenVersion : String)
    (pomContents : List String) : String :=
  let hashInput :=
    osId ++ "-java" ++ javaVersion ++ "-maven" ++ mavenVersion ++ "-" ++
      String.join pomContents
  "maven-deps-" ++ sha256Hex (strBytes hashInput)

def generateRestoreKeys (osId javaVersion mavenVersion : String) : List String :=
  ["maven-deps-" ++ osId ++ "-java" ++ javaVersion ++ "-maven" ++ mavenVersion,
   "maven-deps-" ++ osId ++ "-java" ++ javaVersion,
   "maven-deps-" ++ osId,
   "maven-deps"]

/-! ## CacheManager.restore / save (cache-manager.js 21-95) -/

/-- The inputs the CacheManager holds plus the manifest files the scanner
discovers (path and contents of each `pom.xml`, in discovery order). -/
structure CacheInputs where
  cacheEnabled : Bool
  osId : String
  javaVersion : String
  mavenVersion : String
  pomFiles : List (String × String)
  deriving Repr

def cacheKeyOf (ci : CacheInputs) : String :=
  generateCacheKey ci.osId ci.javaVersion ci.mavenVersion (ci.pomFiles.map Prod.snd)

def manifestReadEffects (ci : CacheInputs) : List Effect :=
  ci.pomFiles.map (fun pf => .fsReadManifest pf.1)

structure RestoreOutcome where
  hit : Bool
  effects : List Effect
  deriving Repr, DecidableEq

/-- `restore()`: when caching is disabled, returns `false` at once; otherwise
derives the key and restore keys, queries the backend, and returns whether
any key matched. `backendResult` is what `cache.restoreCache` produced:
`.ok (some k)` a matched key, `.ok none` a miss, `.error` a thrown failure
(swallowed after a warning). -/
def restore (ci : CacheInputs) (backendResult : Except String (Option String)) :
    RestoreOutcome :=
  if !ci.cacheEnabled then ⟨false, []⟩
  else
    let key := cacheKeyOf ci
    let restoreKeys := generateRestoreKeys ci.osId ci.javaVersion ci.mavenVersion
    let effs := manifestReadEffects ci ++ [.backendRestore key restoreKeys]
    match backendResult with
    | .ok (some _) => ⟨true, effs⟩
    | .ok none => ⟨false, effs⟩
    | .error _ => ⟨false, effs⟩

structure SaveOutcome where
  ret : Bool
  state : String
  effects : List Effect
  deriving Repr, DecidableEq

/-- `save()`: the run state holds the string recorded under `'cache-key'`
(`core.getState` yields `""` when nothing was recorded). `m2Exists` is the
`directoryExists` probe of the local repository; `backendOk` tells whether
`cache.saveCache` succeeds or throws (the catch swallows the failure). The
state is written only after a successful backend save. -/
def save (ci : CacheInputs) (m2Exists backendOk : Bool) (st : String) :
    SaveOutcome :=
  if !ci.cacheEnabled then ⟨false, st, []⟩
  else if !m2Exists then ⟨false, st, [.dirStat "m2repository"]⟩
  else
    let key := cacheKeyOf ci
    let effs0 := .dirStat "m2repository" :: manifestReadEffects ci ++ [.stateRead "cache-key"]
    if st == key then ⟨false, st, effs0⟩
    else if backendOk then
      ⟨true, key, effs0 ++ [.backendSave key, .stateWrite "cache-key" key]⟩
    else ⟨false, st, effs0 ++ [.backendSave key]⟩

/-! ## CacheManager.findPomFiles / findPomFilesRecursive (cache-manager.js 143-188)

The directory tree is modelled explicitly. `findPomFilesRecursive` carries the
source's `depth` counter with its `if (depth > 5) return` cut; the extra
`fuel` argument only makes the recursion structural and never runs out on the
calls made here (fuel 7 at depth 0, decreasing in step with depth, while the
depth cut already stops at depth 6). Paths are component lists relative to
the working directory. Along with the collected `pom.xml` paths the model
records which directories get read (`fs.readdir`).
-/

inductive FsEntry where
  | file (name : String)
  | dir (name : String) (entries : List FsEntry)

def entryName : FsEntry → String
  | .file n => n
  | .dir n _ => n

/-- `fileExists(path)` for a name directly inside `entries` (`fs.access`
succeeds for files and directories alike). -/
def hasEntryNamed (entries : List FsEntry) (n : String) : Bool :=
  entries.any (fun e => entryName e == n)

structure ScanAcc where
  poms : List (List String)
  readDirs : List (List String)

def findPomFilesRecursive (dirPath : List String) (entries : List FsEntry)
    (depth : Nat) : Nat → ScanAcc
  | 0 => ⟨[], []⟩
  | fuel + 1 =>
    if depth > 5 then ⟨[], []⟩
    else
      let children := entries.map (fun e =>
        match e with
        | .file _ => ScanAcc.mk [] []
        | .dir name sub =>
          if !(strStartsWith name ".") && name != "target" then
            let pomHere :=
              if hasEntryNamed sub "pom.xml" then [dirPath ++ [name, "pom.xml"]] else []
            let deeper := findPomFilesRecursive (dirPath ++ [name]) sub (depth + 1) fuel
            ScanAcc.mk (pomHere ++ deeper.poms) deeper.readDirs
          else ScanAcc.mk [] [])
      ScanAcc.mk (children.flatMap ScanAcc.poms)
        (dirPath :: children.flatMap ScanAcc.readDirs)

/-- `findPomFiles()`: the root `pom.xml` first when present, then the
recursive walk from the working directory at depth 0. -/
def findPomFiles (rootEntries : List FsEntry) : ScanAcc :=
  let rootPom := if hasEntryNamed rootEntries "pom.xml" then [["pom.xml"]] else []
  let walked := findPomFilesRecursive [] rootEntries 0 7
  ScanAcc.mk (rootPom ++ walked.poms) walked.readDirs

/-! ## EnvironmentManager: version parsing and compatibility
(environment-manager.js 433-492) -/

def supportedJavaVersions : List String := ["8", "11", "17", "21"]

def supportedJavaDistributions : List String :=
  ["temurin", "zulu", "adopt", "liberica", "microsoft", "corretto"]

def supportedMavenVersions : List String :=
  ["3.6.3", "3.8.1", "3.8.6", "3.9.0", "3.9.5", "3.9.6"]

structure ValidatedInputs where
  javaVersion : String
  javaDistribution : String
  mavenVersion : String
  deriving Repr

/-- The capture of `/^(\d+)/`: the leading run of decimal digits. -/
def leadingDigits (s : String) : String := String.mk (s.data.takeWhile Char.isDigit)

/-- `extractMajorJavaVersion`: strings starting with `"1.8"` map to `"8"`;
otherwise the leading digit run, or the whole string when it has none. -/
def extractMajorJavaVersion (fullVersion : String) : String :=
  if strStartsWith fullVersion "1.8" then "8"
  else if leadingDigits fullVersion == "" then fullVersion
  else leadingDigits fullVersion

/-- JavaScript `parseInt` on version strings: the numeric value of the leading
digit run, `none` for `NaN` (no leading digit). -/
def jsParseInt (s : String) : Option Nat :=
  let ds := s.data.takeWhile Char.isDigit
  if ds.isEmpty then none
  else some (ds.foldl (fun a c => a * 10 + (c.toNat - 48)) 0)

/-- `isJavaVersionBackwardCompatible`: `parseInt(current) >= parseInt(required)`
(`false` when either side is `NaN`). -/
def isJavaVersionBackwardCompatible (current required : String) : Bool :=
  match jsParseInt current, jsParseInt required with
  | some c, some r => r ≤ c
  | _, _ => false

def isJavaVersionCompatible (inputs : ValidatedInputs) (currentVersion : String) : Bool :=
  currentVersion == inputs.javaVersion ||
    isJavaVersionBackwardCompatible currentVersion inputs.javaVersion

/-- `Number(component)` on an all-digit (possibly empty) component;
`Number('')` is `0`, matching the fold on the empty string. -/
def numberOfComponent (s : List Char) : Nat :=
  s.foldl (fun a c => a * 10 + (c.toNat - 48)) 0

/-- JavaScript `s.split('.')` on the character list: splits at every dot and
keeps empty groups (`''.split('.')` is `['']`). -/
def splitOnDot : List Char → List (List Char)
  | [] => [[]]
  | c :: rest =>
    if c = '.' then [] :: splitOnDot rest
    else
      match splitOnDot rest with
      | [] => [[c]]
      | g :: gs => (c :: g) :: gs

/-- `version.split('.').map(Number)`. -/
def splitVersionParts (s : String) : List Nat :=
  (splitOnDot s.data).map numberOfComponent

/-- Continuation of the comparison loop once the current side is exhausted
(every remaining `currentPart` reads as 0): the first positive required
component decides `false`, exhaustion yields `true`. -/
def compareZeroLoop : List Nat → Bool
  | [] => true
  | r :: rs => if 0 < r then false else compareZeroLoop rs

/-- The `for` loop of `isMavenVersionBackwardCompatible`: positions past the
end count as 0; the first strictly greater component decides `true`, the
first strictly smaller decides `false`; exhaustion yields `true`. -/
def comparePartsLoop : List Nat → List Nat → Bool
  | [], rs => compareZeroLoop rs
  | c :: cs, [] => if 0 < c then true else comparePartsLoop cs []
  | c :: cs, r :: rs =>
    if r < c then true else if c < r then false else comparePartsLoop cs rs

def isMavenVersionBackwardCompatible (current required : String) : Bool :=
  comparePartsLoop (splitVersionParts current) (splitVersionParts required)

def isMavenVersionCompatible (inputs : ValidatedInputs) (currentVersion : String) : Bool :=
  currentVersion == inputs.mavenVersion ||
    isMavenVersionBackwardCompatible currentVersion inputs.mavenVersion

/-! ## EnvironmentManager: detection (environment-manager.js 139-260)

The process-execution collaborator and the regular-expression captures on its
stdout are modelled as oracle inputs (`...ProcOutcome`); what the manager does
with them is the code under verification.
-/

structure JavaProcOutcome where
  exitCode : Nat
  versionMatch : Option String
  vendorMatch : Option String
  envJavaHome : String
  homeMatch : Option String
  deriving Repr

structure JavaDetection where
  available : Bool
  version : String
  fullVersion : String
  vendor : String
  javaHome : String
  deriving Repr, DecidableEq

/-- `getCurrentJavaVersion()`: one `java -version` execution; non-zero exit or
an unparsable banner mean absence. When `JAVA_HOME` is unset a second process
call probes `java.home`. -/
def getCurrentJavaVersion (p : JavaProcOutcome) : JavaDetection × List Effect :=
  let e0 : List Effect := [.procExec "java -version"]
  if p.exitCode != 0 then (⟨false, "", "", "", ""⟩, e0)
  else
    match p.versionMatch with
    | none => (⟨false, "", "", "", ""⟩, e0)
    | some fullVersion =>
      let major := extractMajorJavaVersion fullVersion
      let vendor := p.vendorMatch.getD ""
      if p.envJavaHome != "" then
        (⟨true, major, fullVersion, vendor, p.envJavaHome⟩, e0)
      else
        (⟨true, major, fullVersion, vendor, ((p.homeMatch.map strTrim).getD "")⟩,
         e0 ++ [.procExec "java -XshowSettings:properties -version"])

structure MavenProcOutcome where
  exitCode : Nat
  versionMatch : Option String
  homeMatch : Option String
  deriving Repr

structure MavenDetection where
  available : Bool
  version : String
  mavenHome : String
  deriving Repr, DecidableEq

/-- `getCurrentMavenVersion()`: one `mvn -version` execution; non-zero exit or
no `Apache Maven <v>` token mean absence. -/
def getCurrentMavenVersion (p : MavenProcOutcome) : MavenDetection × List Effect :=
  let e0 : List Effect := [.procExec "mvn -version"]
  if p.exitCode != 0 then (⟨false, "", ""⟩, e0)
  else
    match p.versionMatch with
    | none => (⟨false, "", ""⟩, e0)
    | some v => (⟨true, v, (p.homeMatch.map strTrim).getD ""⟩, e0)

/-! ## EnvironmentManager: install and setup (environment-manager.js 53-134, 265-428) -/

def joinComma (l : List String) : String := String.intercalate ", " l

/-- `getJavaDownloadUrl()`: only the temurin distribution has a configured
URL; anything else throws. -/
def getJavaDownloadUrl (inputs : ValidatedInputs) (platform arch : String) :
    Except String String :=
  if inputs.javaDistribution == "temurin" then
    let platformName :=
      if platform == "linux" then "linux"
      else if platform == "darwin" then "mac"
      else if platform == "win32" then "windows"
      else "linux"
    let archV := if arch == "x64" then "x64" else arch
    let archName := if archV == "x64" then "x64" else if archV == "arm64" then "aarch64" else "x64"
    .ok ("https://github.com/adoptium/temurin" ++ inputs.javaVersion ++
         "-binaries/releases/download/jdk-" ++ inputs.javaVersion ++
         "+36/OpenJDK" ++ inputs.javaVersion ++ "U-jdk_" ++ archName ++ "_" ++
         platformName ++ "_hotspot_" ++ inputs.javaVersion ++ "_36.tar.gz")
  else
    .error ("Download URL not configured for " ++ inputs.javaDistribution ++
            " " ++ inputs.javaVersion)

/-- `downloadAndSetupJava()`: tool-cache lookup; on a miss, download, extract
and store (download+store modelled as the two network/tool-cache effects);
then PATH and `JAVA_HOME` registration. `tcFound` is what `tc.find` returned. -/
def downloadAndSetupJava (inputs : ValidatedInputs) (tcFound : Option String)
    (platform arch : String) : Except String String × List Effect :=
  let toolName := "Java_" ++ inputs.javaDistribution
  let findEff : List Effect := [.toolcacheFind toolName inputs.javaVersion]
  match tcFound with
  | some javaPath =>
    (.ok javaPath,
     findEff ++ [.addPath (javaPath ++ "/bin"), .exportVar "JAVA_HOME" javaPath])
  | none =>
    match getJavaDownloadUrl inputs platform arch with
    | .error m => (.error m, findEff)
    | .ok url =>
      let javaPath := "toolcache/" ++ toolName ++ "/" ++ inputs.javaVersion
      (.ok javaPath,
       findEff ++ [.netDownload url, .toolcacheStore toolName inputs.javaVersion,
                   .addPath (javaPath ++ "/bin"), .exportVar "JAVA_HOME" javaPath])

structure JavaSetupOutcome where
  action : String
  version : String
  vendor : String
  path : String
  warning : Option String
  deriving Repr, DecidableEq

/-- `installJava()`: allow-list validation of version then distribution,
before any download step; failures are wrapped in
`Java installation failed: ...`. -/
def installJava (inputs : ValidatedInputs) (tcFound : Option String)
    (platform arch : String) : Except String JavaSetupOutcome × List Effect :=
  if !(supportedJavaVersions.contains inputs.javaVersion) then
    (.error ("Java installation failed: Unsupported Java version: " ++
             inputs.javaVersion ++ ". Supported: " ++ joinComma supportedJavaVersions), [])
  else if !(supportedJavaDistributions.contains inputs.javaDistribution) then
    (.error ("Java installation failed: Unsupported Java distribution: " ++
             inputs.javaDistribution ++ ". Supported: " ++
             joinComma supportedJavaDistributions), [])
  else
    match downloadAndSetupJava inputs tcFound platform arch with
    | (.error m, effs) => (.error ("Java installation failed: " ++ m), effs)
    | (.ok javaPath, effs) =>
      (.ok ⟨"installed", inputs.javaVersion, inputs.javaDistribution, javaPath, none⟩, effs)

/-- `setupJava()`: detect first; a present Java is reused (`existing`) when
compatible, kept with a warning (`warning`) otherwise; installation only
happens when detection reports absence. -/
def setupJava (inputs : ValidatedInputs) (p : JavaProcOutcome)
    (tcFound : Option String) (platform arch : String) :
    Except String JavaSetupOutcome × List Effect :=
  let (cur, dEffs) := getCurrentJavaVersion p
  if cur.available then
    if isJavaVersionCompatible inputs cur.version then
      (.ok ⟨"existing", cur.version, cur.vendor, cur.javaHome, none⟩, dEffs)
    else
      (.ok ⟨"warning", cur.version, cur.vendor, cur.javaHome,
            some ("Version mismatch: current " ++ cur.version ++ ", required " ++
                  inputs.javaVersion)⟩, dEffs)
  else
    let (r, iEffs) := installJava inputs tcFound platform arch
    (r, dEffs ++ iEffs)

/-- `downloadAndSetupMaven()`: tool-cache lookup; on a miss, the fixed Apache
archive URL, extract/relocate/store; then PATH, `M2_HOME` and `MAVEN_HOME`. -/
def downloadAndSetupMaven (inputs : ValidatedInputs) (tcFound : Option String) :
    Except String String × List Effect :=
  let findEff : List Effect := [.toolcacheFind "Maven" inputs.mavenVersion]
  match tcFound with
  | some mavenPath =>
    (.ok mavenPath,
     findEff ++ [.addPath (mavenPath ++ "/bin"), .exportVar "M2_HOME" mavenPath,
                 .exportVar "MAVEN_HOME" mavenPath])
  | none =>
    let url := "https://archive.apache.org/dist/maven/maven-3/" ++ inputs.mavenVersion ++
               "/binaries/apache-maven-" ++ inputs.mavenVersion ++ "-bin.tar.gz"
    let mavenPath := "toolcache/Maven/" ++ inputs.mavenVersion
    (.ok mavenPath,
     findEff ++ [.netDownload url, .toolcacheStore "Maven" inputs.mavenVersion,
                 .addPath (mavenPath ++ "/bin"), .exportVar "M2_HOME" mavenPath,
                 .exportVar "MAVEN_HOME" mavenPath])

structure MavenSetupOutcome where
  action : String
  version : String
  path : String
  warning : Option String
  deriving Repr, DecidableEq

/-- `installMaven()`: allow-list validation of the version before any
download step; failures are wrapped in `Maven installation failed: ...`. -/
def installMaven (inputs : ValidatedInputs) (tcFound : Option String) :
    Except String MavenSetupOutcome × List Effect :=
  if !(supportedMavenVersions.contains inputs.mavenVersion) then
    (.error ("Maven installation failed: Unsupported Maven version: " ++
             inputs.mavenVersion ++ ". Supported: " ++ joinComma supportedMavenVersions), [])
  else
    match downloadAndSetupMaven inputs tcFound with
    | (.error m, effs) => (.error ("Maven installation failed: " ++ m), effs)
    | (.ok p, effs) => (.ok ⟨"installed", inputs.mavenVersion, p, none⟩, effs)

/-- `setupMaven()`: detect first; a present Maven is reused (`existing`) when
compatible, kept with a warning (`warning`) otherwise; installation only
happens when detection reports absence. -/
def setupMaven (inputs : ValidatedInputs) (p : MavenProcOutcome)
    (tcFound : Option String) : Except String MavenSetupOutcome × List Effect :=
  let (cur, dEffs) := getCurrentMavenVersion p
  if cur.available then
    if isMavenVersionCompatible inputs cur.version then
      (.ok ⟨"existing", cur.version, cur.mavenHome, none⟩, dEffs)
    else
      (.ok ⟨"warning", cur.version, cur.mavenHome,
            some ("Version mismatch: current " ++ cur.version ++ ", required " ++
                  inputs.mavenVersion)⟩, dEffs)
  else
    let (r, iEffs) := installMaven inputs tcFound
    (r, dEffs ++ iEffs)

/-! ## Specification-side definitions

Definitions written from the spec's words, for comparison with the embedded
code: the dotted-version ordering of §4.2 (pad with zeros, then the standard
lexicographic order by integer component).
-/

/-- Zero-pad a component list to length `n`. -/
def padTo (l : List Nat) (n : Nat) : List Nat := l ++ List.replicate (n - l.length) 0

/-- The spec's ordering on dotted versions: missing trailing components are
treated as 0 and the padded lists are compared lexicographically by integer
component; `c ≥ r` means equal or lexicographically greater. -/
def specVersionGe (c r : List Nat) : Prop :=
  padTo c (max c.length r.length) = padTo r (max c.length r.length) ∨
    List.Lex (· < ·) (padTo r (max c.length r.length)) (padTo c (max c.length r.length))

/-- Well-formed version strings for claims about the comparison policy: every
dot-separated component is a digit run short enough that the JavaScript
`Number` conversion is exact. -/
def allDigitComponents (s : String) : Bool :=
  (splitOnDot s.data).all (fun comp => comp.length ≤ 15 && comp.all Char.isDigit)

/-- Availability as `getCurrentJavaVersion` reports it: exit code 0 and a
parsable `version "..."` banner. -/
def javaProbeAvailable (p : JavaProcOutcome) : Bool :=
  p.exitCode == 0 && p.versionMatch.isSome

/-- The directory-name filter of the scanner: not hidden, not `target`. -/
def okDirName (n : String) : Bool := !(strStartsWith n ".") && n != "target"

/-! ## C1 -/

/-- C1, counterexample: with the root-only manifest `"A"`, os `linux`,
runtime `17`, build tool `3.9.5`, the key `generateCacheKey` returns is NOT
the prefix followed by the SHA-256 of the undelimited concatenation
`"linux" ++ "17" ++ "3.9.5" ++ "A"`: the code hashes
`linux-java17-maven3.9.5-A`, which has literal delimiters between the
context components. -/
theorem c1_counterexample :
    generateCacheKey "linux" "17" "3.9.5" ["A"] ≠
      "maven-deps-" ++ sha256Hex (strBytes ("linux" ++ "17" ++ "3.9.5" ++ "A")) := by
  decide

/-- C1, amended: for the Scenario-A input the key is the fixed prefix
`maven-deps-` followed by the hex SHA-256 of
`"linux" ++ "-java" ++ "17" ++ "-maven" ++ "3.9.5" ++ "-" ++ "A"`, i.e. the
components are joined with the literal separators `-java`, `-maven` and `-`;
only the manifest contents themselves are concatenated without a delimiter.
The second conjunct pins the digest to its externally computed value. -/
theorem c1_key_from_delimited_concatenation :
    generateCacheKey "linux" "17" "3.9.5" ["A"] =
      "maven-deps-" ++
        sha256Hex (strBytes ("linux" ++ "-java" ++ "17" ++ "-maven" ++ "3.9.5" ++ "-" ++ "A")) ∧
    generateCacheKey "linux" "17" "3.9.5" ["A"] =
      "maven-deps-88a74b354e984dc95421946be4b218794ce94146cf072508c3a6db41a910e290" := by
  exact ⟨rfl, by decide⟩

/-! ## C2 -/

/-- C2, counterexample: with the unsupported requested version `"99"` but a
Java present (probe succeeds with version `17.0.2`), `setupJava` raises no
`ConfigurationError` at all — it returns the warning outcome — and the trace
contains a process-execution call, so neither "raised immediately" nor "zero
process calls" holds. -/
theorem c2_counterexample :
    supportedJavaVersions.contains "99" = false ∧
    (setupJava ⟨"99", "corretto", "3.9.5"⟩
        ⟨0, some "17.0.2", some "OpenJDK", "/opt/java", none⟩ none "linux" "x64").1 =
      .ok ⟨"warning", "17", "OpenJDK", "/opt/java",
           some "Version mismatch: current 17, required 99"⟩ ∧
    ((setupJava ⟨"99", "corretto", "3.9.5"⟩
        ⟨0, some "17.0.2", some "OpenJDK", "/opt/java", none⟩ none "linux"
        "x64").2.filter Effect.isProcExec).length = 1 := by
  decide

/-- C2, amended: the allow-list validation runs on the install path only.
For an unsupported requested version: when detection reports the tool absent,
`setupJava` fails with the unsupported-version configuration error and its
whole trace is the single version-query process execution — in particular
zero network/download calls — and when a tool is detected present, no error
is raised at all (the requirement is never validated). -/
theorem c2_unsupported_version_error_on_install_path_only (inputs : ValidatedInputs)
    (p : JavaProcOutcome) (tc : Option String) (platform arch : String)
    (hv : supportedJavaVersions.contains inputs.javaVersion = false) :
    (javaProbeAvailable p = false →
      (setupJava inputs p tc platform arch).1 =
        .error ("Java installation failed: Unsupported Java version: " ++
          inputs.javaVersion ++ ". Supported: " ++ joinComma supportedJavaVersions) ∧
      (setupJava inputs p tc platform arch).2 = [.procExec "java -version"]) ∧
    (javaProbeAvailable p = true →
      (setupJava inputs p tc platform arch).1.isOk = true) := by
  obtain ⟨ec, vm, vdm, ejh, hm⟩ := p
  have hv' : ¬ inputs.javaVersion ∈ supportedJavaVersions := by simpa using hv
  constructor
  · intro hp
    by_cases hec : ec = 0
    · subst hec
      cases vm with
      | some fv => simp [javaProbeAvailable] at hp
      | none => simp [setupJava, getCurrentJavaVersion, installJava, hv']
    · simp [setupJava, getCurrentJavaVersion, hec, installJava, hv']
  · intro hp
    rw [javaProbeAvailable, Bool.and_eq_true] at hp
    obtain ⟨hec, hvm⟩ := hp
    have hec' : ec = 0 := by simpa using hec
    obtain ⟨fv, rfl⟩ := Option.isSome_iff_exists.mp hvm
    subst hec'
    by_cases hh : ejh = ""
    · subst hh
      by_cases hc : isJavaVersionCompatible inputs (extractMajorJavaVersion fv) = true <;>
        simp [setupJava, getCurrentJavaVersion, hc, Except.isOk, Except.toBool]
    · by_cases hc : isJavaVersionCompatible inputs (extractMajorJavaVersion fv) = true <;>
        simp [setupJava, getCurrentJavaVersion, hh, hc, Except.isOk, Except.toBool]

/-- Witness for `c2_unsupported_version_error_on_install_path_only` at a
concrete input (unsupported version `99`, tool absent). -/
theorem c2_unsupported_version_error_on_install_path_only_witness :
    (setupJava ⟨"99", "corretto", "3.9.5"⟩ ⟨127, none, none, "", none⟩ none "linux" "x64").1 =
      .error ("Java installation failed: Unsupported Java version: " ++
        "99" ++ ". Supported: " ++ joinComma supportedJavaVersions) ∧
    (setupJava ⟨"99", "corretto", "3.9.5"⟩ ⟨127, none, none, "", none⟩ none "linux" "x64").2 =
      [.procExec "java -version"] :=
  (c2_unsupported_version_error_on_install_path_only ⟨"99", "corretto", "3.9.5"⟩
    ⟨127, none, none, "", none⟩ none "linux" "x64" (by decide)).1 (by decide)

/-! ## C3 -/

/-- C3, counterexample: `restore` does not return a `{hit, matchedKey,
exact}` record; its entire observable result is one boolean plus the
collaborator calls, and that result is identical when the backend matches
the primary key and when it matches only the unrelated fallback key
`maven-deps-linux` — the caller cannot observe whether the match was
exact. -/
theorem c3_counterexample :
    restore ⟨true, "linux", "17", "3.9.5", [("pom.xml", "A")]⟩
        (.ok (some (cacheKeyOf ⟨true, "linux", "17", "3.9.5", [("pom.xml", "A")]⟩))) =
      restore ⟨true, "linux", "17", "3.9.5", [("pom.xml", "A")]⟩
        (.ok (some "maven-deps-linux")) ∧
    cacheKeyOf ⟨true, "linux", "17", "3.9.5", [("pom.xml", "A")]⟩ ≠ "maven-deps-linux" := by
  decide

/-- C3, amended: `restore` returns only a hit boolean; the matched key is
logged, not returned, so the return value is `true` for every matched key
(exact or fallback alike, hence indistinguishable), `false` on a miss, and
`false` when the backend throws. -/
theorem c3_restore_returns_only_hit_boolean (ci : CacheInputs) (k k' : String)
    (he : ci.cacheEnabled = true) :
    (restore ci (.ok (some k))).hit = true ∧
    (restore ci (.ok (some k))).hit = (restore ci (.ok (some k'))).hit ∧
    (restore ci (.ok none)).hit = false ∧
    (∀ m : String, (restore ci (.error m)).hit = false) := by
  simp [restore, he]

/-- Witness for `c3_restore_returns_only_hit_boolean` at a concrete input. -/
theorem c3_restore_returns_only_hit_boolean_witness :
    (restore ⟨true, "linux", "17", "3.9.5", []⟩ (.ok (some "k1"))).hit = true ∧
    (restore ⟨true, "linux", "17", "3.9.5", []⟩ (.ok (some "k1"))).hit =
      (restore ⟨true, "linux", "17", "3.9.5", []⟩ (.ok (some "k2"))).hit ∧
    (restore ⟨true, "linux", "17", "3.9.5", []⟩ (.ok none)).hit = false ∧
    (∀ m : String, (restore ⟨true, "linux", "17", "3.9.5", []⟩ (.error m)).hit = false) :=
  c3_restore_returns_only_hit_boolean ⟨true, "linux", "17", "3.9.5", []⟩ "k1" "k2" rfl

/-! ## C4 -/

/-- C4, counterexample: the legacy form is not parsed as `major = X` for
every `X`: `"1.7.0_80"` yields `"1"`, not `"7"` (only the `1.8` family is
special-cased). -/
theorem c4_counterexample :
    extractMajorJavaVersion "1.7.0_80" ≠ "7" ∧
    extractMajorJavaVersion "1.7.0_80" = "1" := by
  decide

/-- Helper: `takeWhile` over an append whose left part satisfies the test
throughout and whose right part starts with a failing element (or is empty)
returns exactly the left part. -/
theorem takeWhile_append_all {p : Char → Bool} {l1 l2 : List Char}
    (h1 : l1.all p = true) (h2 : (l2.head?.map p).getD false = false) :
    (l1 ++ l2).takeWhile p = l1 := by
  induction l1 with
  | nil =>
    cases l2 with
    | nil => rfl
    | cons c t =>
      simp at h2
      simp [List.takeWhile_cons, h2]
  | cons a l ih =>
    rw [List.all_cons, Bool.and_eq_true] at h1
    simp [List.takeWhile_cons, h1.1, ih h1.2]

/-- C4, amended: the runtime version parser special-cases only the `1.8`
legacy family: every string starting with `"1.8"` yields major `"8"`, and
every other version string consisting of a non-empty digit run followed by a
non-digit remainder yields that digit run as the major (so the modern form
`"X.Y.Z…"` yields `X`, while a legacy `"1.X.0_build"` with `X ≠ 8` yields
`"1"`, not `X`). -/
theorem c4_legacy_form_only_for_18 :
    (∀ s : String, strStartsWith s "1.8" = true → extractMajorJavaVersion s = "8") ∧
    (∀ v rest : String, v.data ≠ [] → v.data.all Char.isDigit = true →
      strStartsWith (v ++ rest) "1.8" = false →
      (rest.data.head?.map Char.isDigit).getD false = false →
      extractMajorJavaVersion (v ++ rest) = v) := by
  constructor
  · intro s hs
    simp [extractMajorJavaVersion, hs]
  · intro v rest hne hdig hpre hhead
    have hdata : (v ++ rest).data = v.data ++ rest.data := String.data_append v rest
    have hlead : leadingDigits (v ++ rest) = v := by
      unfold leadingDigits
      rw [hdata, takeWhile_append_all hdig hhead]
    have hvne : v ≠ "" := by
      intro h
      rw [h] at hne
      exact hne rfl
    have hbe : (leadingDigits (v ++ rest) == "") = false := by
      rw [hlead]
      exact beq_eq_false_iff_ne.mpr hvne
    unfold extractMajorJavaVersion
    rw [hpre, hbe, hlead]
    simp

/-- Witness for `c4_legacy_form_only_for_18` at concrete inputs. -/
theorem c4_legacy_form_only_for_18_witness :
    extractMajorJavaVersion "1.8.0_292" = "8" ∧
    extractMajorJavaVersion ("17" ++ ".0.2") = "17" :=
  ⟨c4_legacy_form_only_for_18.1 "1.8.0_292" (by decide),
   c4_legacy_form_only_for_18.2 "17" ".0.2" (by decide) (by decide) (by decide) (by decide)⟩

/-! ## C9 -/

/-- C9: `save` is atomic with respect to the run state on backend failure:
when the backend `saveCache` call throws, `save` returns `false` and the
recorded `cache-key` state is unchanged, for every input and prior state. -/
theorem c9_save_state_unchanged_on_backend_failure (ci : CacheInputs)
    (m2Exists : Bool) (st : String) :
    (save ci m2Exists false st).ret = false ∧ (save ci m2Exists false st).state = st := by
  by_cases h1 : ci.cacheEnabled = true
  · by_cases h2 : m2Exists = true
    · by_cases h3 : (st == cacheKeyOf ci) = true <;> simp [save, h1, h2, h3]
    · simp [save, h1, h2]
  · simp [save, h1]

/-! ## C10 -/

/-- C10: with caching disabled, `restore` and `save` both return `false`
with an empty collaborator trace: no backend call, no manifest read, no
directory stat, no run-state read or write. -/
theorem c10_disabled_cache_is_inert (ci : CacheInputs)
    (b : Except String (Option String)) (m2Exists backendOk : Bool) (st : String)
    (h : ci.cacheEnabled = false) :
    restore ci b = ⟨false, []⟩ ∧ save ci m2Exists backendOk st = ⟨false, st, []⟩ := by
  constructor
  · unfold restore
    rw [h]
    rfl
  · unfold save
    rw [h]
    rfl

/-- Witness for `c10_disabled_cache_is_inert` at a concrete input. -/
theorem c10_disabled_cache_is_inert_witness :
    restore ⟨false, "linux", "17", "3.9.5", [("pom.xml", "A")]⟩ (.ok (some "k")) = ⟨false, []⟩ ∧
    save ⟨false, "linux", "17", "3.9.5", [("pom.xml", "A")]⟩ true true "" = ⟨false, "", []⟩ :=
  c10_disabled_cache_is_inert ⟨false, "linux", "17", "3.9.5", [("pom.xml", "A")]⟩
    (.ok (some "k")) true true "" rfl

/-- Helper for C6, by induction on the fuel (which mirrors the source's
`depth` cut): every directory the scanner reads lies at most `5 - depth`
levels below the directory of the call, every returned `pom.xml` lies in a
directory at most `6 - depth` levels below it, and every traversed component
passes the hidden/`target` filter. -/
theorem findPomFilesRecursive_bounds :
    ∀ (fuel : Nat) (dirPath : List String) (entries : List FsEntry) (depth : Nat),
      (∀ q ∈ (findPomFilesRecursive dirPath entries depth fuel).readDirs,
        ∃ suf, q = dirPath ++ suf ∧ suf.length + depth ≤ 5 ∧ suf.all okDirName = true) ∧
      (∀ p ∈ (findPomFilesRecursive dirPath entries depth fuel).poms,
        ∃ suf, p = dirPath ++ suf ++ ["pom.xml"] ∧ suf.length + depth ≤ 6 ∧
          suf.all okDirName = true ∧ suf ≠ []) := by
  intro fuel
  induction fuel with
  | zero =>
    intro dirPath entries depth
    constructor
    · intro q hq
      simp [findPomFilesRecursive] at hq
    · intro p hp
      simp [findPomFilesRecursive] at hp
  | succ fuel ih =>
    intro dirPath entries depth
    by_cases hd : depth > 5
    · constructor
      · intro q hq
        simp [findPomFilesRecursive, hd] at hq
      · intro p hp
        simp [findPomFilesRecursive, hd] at hp
    · constructor
      · intro q hq
        simp only [findPomFilesRecursive, if_neg hd] at hq
        rw [List.mem_cons] at hq
        rcases hq with rfl | hq
        · exact ⟨[], by simp, by simp only [List.length_nil]; omega, rfl⟩
        · rw [List.mem_flatMap] at hq
          obtain ⟨acc, hacc, hqacc⟩ := hq
          rw [List.mem_map] at hacc
          obtain ⟨e, he, rfl⟩ := hacc
          cases e with
          | file nm => simp at hqacc
          | dir name sub =>
            by_cases hok : (!(strStartsWith name ".") && name != "target") = true
            · simp only [hok, if_true] at hqacc
              obtain ⟨suf', rfl, hlen, hall⟩ :=
                (ih (dirPath ++ [name]) sub (depth + 1)).1 _ hqacc
              refine ⟨name :: suf', by simp, by simp at hlen ⊢; omega, ?_⟩
              rw [List.all_cons, Bool.and_eq_true]
              exact ⟨hok, hall⟩
            · simp [hok] at hqacc
      · intro p hp
        simp only [findPomFilesRecursive, if_neg hd] at hp
        rw [List.mem_flatMap] at hp
        obtain ⟨acc, hacc, hpacc⟩ := hp
        rw [List.mem_map] at hacc
        obtain ⟨e, he, rfl⟩ := hacc
        cases e with
        | file nm => simp at hpacc
        | dir name sub =>
          by_cases hok : (!(strStartsWith name ".") && name != "target") = true
          · simp only [hok, if_true] at hpacc
            rw [List.mem_append] at hpacc
            rcases hpacc with hpacc | hpacc
            · by_cases hpom : hasEntryNamed sub "pom.xml" = true
              · simp only [hpom, if_true, List.mem_singleton] at hpacc
                subst hpacc
                refine ⟨[name], by simp,
                  by simp only [List.length_cons, List.length_nil]; omega, ?_, by simp⟩
                rw [List.all_cons, Bool.and_eq_true]
                exact ⟨hok, rfl⟩
              · simp [hpom] at hpacc
            · obtain ⟨suf', rfl, hlen, hall, hne⟩ :=
                (ih (dirPath ++ [name]) sub (depth + 1)).2 _ hpacc
              refine ⟨name :: suf', by simp, by simp at hlen ⊢; omega, ?_, by simp⟩
              rw [List.all_cons, Bool.and_eq_true]
              exact ⟨hok, hall⟩
          · simp [hok] at hpacc

/-- C6, amended: the scanner never reads a directory more than 5 levels
below the root and never traverses a hidden or `target` directory, but
returned manifests reach one level further: every returned path has at most
7 components (a `pom.xml` in a directory at depth ≤ 6), with all its
directory components passing the hidden/`target` filter. -/
theorem c6_scanner_depth_and_filter_bounds (tree : List FsEntry) :
    (∀ q ∈ (findPomFiles tree).readDirs, q.length ≤ 5 ∧ q.all okDirName = true) ∧
    (∀ p ∈ (findPomFiles tree).poms, p.length ≤ 7 ∧ p.dropLast.all okDirName = true) := by
  have h := findPomFilesRecursive_bounds 7 [] tree 0
  constructor
  · intro q hq
    have hq' : q ∈ (findPomFilesRecursive [] tree 0 7).readDirs := by
      simpa [findPomFiles] using hq
    obtain ⟨suf, rfl, hlen, hall⟩ := h.1 _ hq'
    simp at hall ⊢
    exact ⟨by omega, hall⟩
  · intro p hp
    have hp' : p ∈ (if hasEntryNamed tree "pom.xml" then [["pom.xml"]]
        else ([] : List (List String))) ∨
        p ∈ (findPomFilesRecursive [] tree 0 7).poms := by
      have hsplit : p ∈ (if hasEntryNamed tree "pom.xml" then [["pom.xml"]]
          else ([] : List (List String))) ++
          (findPomFilesRecursive [] tree 0 7).poms := by
        simpa [findPomFiles] using hp
      exact List.mem_append.mp hsplit
    rcases hp' with hp' | hp'
    · by_cases hroot : hasEntryNamed tree "pom.xml" = true
      · simp [hroot] at hp'
        subst hp'
        simp
      · simp [hroot] at hp'
    · obtain ⟨suf, rfl, hlen, hall, hne⟩ := h.2 _ hp'
      constructor
      · simp
        omega
      · simp
        simpa using hall

/-- Witness for `c6_scanner_depth_and_filter_bounds` at the six-deep chain
tree, applied to a concrete read directory and a concrete returned
manifest. -/
theorem c6_scanner_depth_and_filter_bounds_witness :
    (["a1"].length ≤ 5 ∧ ["a1"].all okDirName = true) ∧
    (["a1", "a2", "a3", "a4", "a5", "a6", "pom.xml"].length ≤ 7 ∧
      ["a1", "a2", "a3", "a4", "a5", "a6", "pom.xml"].dropLast.all okDirName = true) :=
  ⟨(c6_scanner_depth_and_filter_bounds
      [.dir "a1" [.dir "a2" [.dir "a3" [.dir "a4" [.dir "a5"
        [.dir "a6" [.file "pom.xml"]]]]]]]).1 ["a1"] (by decide),
   (c6_scanner_depth_and_filter_bounds
      [.dir "a1" [.dir "a2" [.dir "a3" [.dir "a4" [.dir "a5"
        [.dir "a6" [.file "pom.xml"]]]]]]]).2
     ["a1", "a2", "a3", "a4", "a5", "a6", "pom.xml"] (by decide)⟩

/-! ## C7 -/

/-- Helper: against an exhausted required list the comparison loop always
answers `true` (missing required components read as 0). -/
theorem comparePartsLoop_nil_right (cs : List Nat) : comparePartsLoop cs [] = true := by
  induction cs with
  | nil => rfl
  | cons c cs ih => by_cases h : 0 < c <;> simp [comparePartsLoop, h, ih]

/-- Helper: with the current side exhausted the loop accepts exactly the
all-zero required remainders. -/
theorem compareZeroLoop_iff (rs : List Nat) :
    compareZeroLoop rs = true ↔ rs = List.replicate rs.length 0 := by
  induction rs with
  | nil => simp [compareZeroLoop]
  | cons r rs ih =>
    by_cases h : 0 < r
    · have hr : r ≠ 0 := by omega
      simp [compareZeroLoop, h, List.replicate_succ, hr]
    · have hr : r = 0 := by omega
      subst hr
      simp [compareZeroLoop, List.replicate_succ, ih]

/-- Helper: no list of naturals is lexicographically below the all-zero list
of its own length. -/
theorem not_lex_lt_replicate_zero (l : List Nat) :
    ¬ List.Lex (· < ·) l (List.replicate l.length 0) := by
  induction l with
  | nil =>
    intro h
    cases h
  | cons a l ih =>
    intro h
    rw [List.length_cons, List.replicate_succ] at h
    cases h with
    | rel hr => omega
    | cons ht => exact ih ht

/-- Helper: the all-zero list is lexicographically least among lists of its
length. -/
theorem replicate_zero_le (l : List Nat) :
    l = List.replicate l.length 0 ∨ List.Lex (· < ·) (List.replicate l.length 0) l := by
  induction l with
  | nil => exact Or.inl rfl
  | cons a l ih =>
    by_cases h : 0 < a
    · right
      rw [List.length_cons, List.replicate_succ]
      exact List.Lex.rel h
    · have ha : a = 0 := by omega
      subst ha
      rw [List.length_cons, List.replicate_succ]
      rcases ih with h1 | h1
      · left
        rw [← h1]
      · right
        exact List.Lex.cons h1

theorem padTo_nil (n : Nat) : padTo [] n = List.replicate n 0 := by
  simp [padTo]

theorem padTo_self (l : List Nat) : padTo l l.length = l := by
  simp [padTo]

theorem padTo_cons (a : Nat) (l : List Nat) (n : Nat) :
    padTo (a :: l) (n + 1) = a :: padTo l n := by
  simp [padTo, List.length_cons, Nat.succ_sub_succ]

/-- The code's comparison loop decides exactly the spec's zero-padded
lexicographic `detected ≥ required` ordering. -/
theorem comparePartsLoop_iff_specGe (c : List Nat) :
    ∀ r, comparePartsLoop c r = true ↔ specVersionGe c r := by
  induction c with
  | nil =>
    intro r
    have hl : comparePartsLoop [] r = compareZeroLoop r := rfl
    have hspec : specVersionGe [] r ↔
        (List.replicate r.length 0 = r ∨ List.Lex (· < ·) r (List.replicate r.length 0)) := by
      rw [specVersionGe]
      simp [padTo_nil, padTo_self]
    rw [hl, hspec]
    constructor
    · intro h
      exact Or.inl ((compareZeroLoop_iff r).mp h).symm
    · rintro (h | h)
      · exact (compareZeroLoop_iff r).mpr h.symm
      · exact absurd h (not_lex_lt_replicate_zero r)
  | cons c0 cs ih =>
    intro r
    cases r with
    | nil =>
      have hspec : specVersionGe (c0 :: cs) [] := by
        rw [specVersionGe]
        simp only [List.length_nil, Nat.max_zero, padTo_nil, padTo_self]
        exact replicate_zero_le (c0 :: cs)
      simp [comparePartsLoop_nil_right, hspec]
    | cons r0 rs =>
      have hn : max (c0 :: cs).length (r0 :: rs).length = (max cs.length rs.length) + 1 := by
        simp [List.length_cons, Nat.succ_max_succ]
      have hspec : specVersionGe (c0 :: cs) (r0 :: rs) ↔
          (c0 :: padTo cs (max cs.length rs.length) = r0 :: padTo rs (max cs.length rs.length) ∨
           List.Lex (· < ·) (r0 :: padTo rs (max cs.length rs.length))
             (c0 :: padTo cs (max cs.length rs.length))) := by
        rw [specVersionGe, hn, padTo_cons, padTo_cons]
      by_cases h1 : r0 < c0
      · have hloop : comparePartsLoop (c0 :: cs) (r0 :: rs) = true := by
          simp [comparePartsLoop, h1]
        exact iff_of_true hloop (hspec.mpr (Or.inr (List.Lex.rel h1)))
      · by_cases h2 : c0 < r0
        · have hloop : comparePartsLoop (c0 :: cs) (r0 :: rs) = false := by
            simp [comparePartsLoop, h1, h2]
          have hnotspec : ¬ specVersionGe (c0 :: cs) (r0 :: rs) := by
            rw [hspec]
            rintro (he | hlex)
            · have hee : c0 = r0 := by
                injection he with he1 he2
              omega
            · cases hlex with
              | rel hr => omega
              | cons ht => omega
          exact iff_of_false (by simp [hloop]) hnotspec
        · have he : c0 = r0 := by omega
          subst he
          have hloop : comparePartsLoop (c0 :: cs) (c0 :: rs) = comparePartsLoop cs rs := by
            simp [comparePartsLoop, h1]
          rw [hloop, hspec]
          constructor
          · intro h
            rcases (ih rs).mp h with h3 | h3
            · exact Or.inl (by rw [h3])
            · exact Or.inr (List.Lex.cons h3)
          · rintro (h3 | h3)
            · apply (ih rs).mpr
              injection h3 with h31 h32
              exact Or.inl h32
            · cases h3 with
              | rel hr => omega
              | cons ht => exact (ih rs).mpr (Or.inr ht)

/-- C7: for dotted numeric version strings, `isMavenVersionCompatible`
returns `true` exactly when detected ≥ required in the spec's ordering:
component-wise, missing trailing components read as 0, lexicographic by
integer component — so equal versions are compatible. The hypotheses scope
the claim to well-formed version strings (digit-run components small enough
for the JavaScript `Number` conversion to be exact). -/
theorem c7_maven_compat_iff_componentwise_ge (inputs : ValidatedInputs) (detected : String)
    (hd : allDigitComponents detected = true)
    (hr : allDigitComponents inputs.mavenVersion = true) :
    isMavenVersionCompatible inputs detected = true ↔
      specVersionGe (splitVersionParts detected) (splitVersionParts inputs.mavenVersion) := by
  rw [isMavenVersionCompatible, isMavenVersionBackwardCompatible, Bool.or_eq_true]
  constructor
  · rintro (he | hb)
    · have heq : detected = inputs.mavenVersion := by simpa using he
      rw [heq]
      exact Or.inl rfl
    · exact (comparePartsLoop_iff_specGe _ _).mp hb
  · intro h
    exact Or.inr ((comparePartsLoop_iff_specGe _ _).mpr h)

/-- Witness for `c7_maven_compat_iff_componentwise_ge` at a concrete input
(detected `3.9.5`, required `3.9.5`). -/
theorem c7_maven_compat_iff_componentwise_ge_witness :
    isMavenVersionCompatible ⟨"17", "corretto", "3.9.5"⟩ "3.9.5" = true ↔
      specVersionGe (splitVersionParts "3.9.5") (splitVersionParts "3.9.5") :=
  c7_maven_compat_iff_componentwise_ge ⟨"17", "corretto", "3.9.5"⟩ "3.9.5"
    (by decide) (by decide)

/-! ## C8 -/

/-- C8: whenever detection reports a tool present whose version the policy
rejects, the setup returns the `warning` outcome whose text names both the
detected and the required version, raises no error, and performs no
installer step (no download, tool-cache, PATH or environment-variable
effect) — for the runtime (`setupJava`) and the build tool (`setupMaven`)
alike. -/
theorem c8_incompatible_present_tool_reused_with_warning (inputs : ValidatedInputs)
    (pj : JavaProcOutcome) (pm : MavenProcOutcome) (tcj tcm : Option String)
    (platform arch : String) :
    ((getCurrentJavaVersion pj).1.available = true →
      isJavaVersionCompatible inputs (getCurrentJavaVersion pj).1.version = false →
      (setupJava inputs pj tcj platform arch).1 =
        .ok ⟨"warning", (getCurrentJavaVersion pj).1.version,
             (getCurrentJavaVersion pj).1.vendor, (getCurrentJavaVersion pj).1.javaHome,
             some ("Version mismatch: current " ++ (getCurrentJavaVersion pj).1.version ++
                   ", required " ++ inputs.javaVersion)⟩ ∧
      (setupJava inputs pj tcj platform arch).2.filter Effect.isInstallStep = []) ∧
    ((getCurrentMavenVersion pm).1.available = true →
      isMavenVersionCompatible inputs (getCurrentMavenVersion pm).1.version = false →
      (setupMaven inputs pm tcm).1 =
        .ok ⟨"warning", (getCurrentMavenVersion pm).1.version,
             (getCurrentMavenVersion pm).1.mavenHome,
             some ("Version mismatch: current " ++ (getCurrentMavenVersion pm).1.version ++
                   ", required " ++ inputs.mavenVersion)⟩ ∧
      (setupMaven inputs pm tcm).2.filter Effect.isInstallStep = []) := by
  constructor
  · intro hav hc
    have h1 : setupJava inputs pj tcj platform arch =
        (.ok ⟨"warning", (getCurrentJavaVersion pj).1.version,
              (getCurrentJavaVersion pj).1.vendor, (getCurrentJavaVersion pj).1.javaHome,
              some ("Version mismatch: current " ++ (getCurrentJavaVersion pj).1.version ++
                    ", required " ++ inputs.javaVersion)⟩,
         (getCurrentJavaVersion pj).2) := by
      rw [setupJava]
      simp [hav, hc]
    rw [h1]
    refine ⟨rfl, ?_⟩
    obtain ⟨ec, vm, vdm, ejh, hmm⟩ := pj
    by_cases hec : ec = 0
    · subst hec
      cases vm with
      | some fv =>
        by_cases hh : ejh = "" <;> simp [getCurrentJavaVersion, hh, Effect.isInstallStep]
      | none => simp [getCurrentJavaVersion, Effect.isInstallStep]
    · simp [getCurrentJavaVersion, hec, Effect.isInstallStep]
  · intro hav hc
    have h1 : setupMaven inputs pm tcm =
        (.ok ⟨"warning", (getCurrentMavenVersion pm).1.version,
              (getCurrentMavenVersion pm).1.mavenHome,
              some ("Version mismatch: current " ++ (getCurrentMavenVersion pm).1.version ++
                    ", required " ++ inputs.mavenVersion)⟩,
         (getCurrentMavenVersion pm).2) := by
      rw [setupMaven]
      simp [hav, hc]
    rw [h1]
    refine ⟨rfl, ?_⟩
    obtain ⟨ec, vm, hmm⟩ := pm
    by_cases hec : ec = 0
    · subst hec
      cases vm with
      | some fv => simp [getCurrentMavenVersion, Effect.isInstallStep]
      | none => simp [getCurrentMavenVersion, Effect.isInstallStep]
    · simp [getCurrentMavenVersion, hec, Effect.isInstallStep]

/-- Witness for `c8_incompatible_present_tool_reused_with_warning` at
concrete inputs: Java 11 present with 17 required, Maven 3.6.3 present with
3.9.5 required. -/
theorem c8_incompatible_present_tool_reused_with_warning_witness :
    ((setupJava ⟨"17", "corretto", "3.9.5"⟩
        ⟨0, some "11.0.5", some "OpenJDK", "/opt/java11", none⟩ none "linux" "x64").1 =
      .ok ⟨"warning",
           (getCurrentJavaVersion ⟨0, some "11.0.5", some "OpenJDK", "/opt/java11", none⟩).1.version,
           (getCurrentJavaVersion ⟨0, some "11.0.5", some "OpenJDK", "/opt/java11", none⟩).1.vendor,
           (getCurrentJavaVersion ⟨0, some "11.0.5", some "OpenJDK", "/opt/java11", none⟩).1.javaHome,
           some ("Version mismatch: current " ++
             (getCurrentJavaVersion ⟨0, some "11.0.5", some "OpenJDK", "/opt/java11", none⟩).1.version ++
             ", required " ++ "17")⟩ ∧
      (setupJava ⟨"17", "corretto", "3.9.5"⟩
        ⟨0, some "11.0.5", some "OpenJDK", "/opt/java11", none⟩ none "linux"
        "x64").2.filter Effect.isInstallStep = []) ∧
    ((setupMaven ⟨"17", "corretto", "3.9.5"⟩ ⟨0, some "3.6.3", some "/usr/share/maven"⟩ none).1 =
      .ok ⟨"warning",
           (getCurrentMavenVersion ⟨0, some "3.6.3", some "/usr/share/maven"⟩).1.version,
           (getCurrentMavenVersion ⟨0, some "3.6.3", some "/usr/share/maven"⟩).1.mavenHome,
           some ("Version mismatch: current " ++
             (getCurrentMavenVersion ⟨0, some "3.6.3", some "/usr/share/maven"⟩).1.version ++
             ", required " ++ "3.9.5")⟩ ∧
      (setupMaven ⟨"17", "corretto", "3.9.5"⟩
        ⟨0, some "3.6.3", some "/usr/share/maven"⟩ none).2.filter Effect.isInstallStep = []) :=
  ⟨(c8_incompatible_present_tool_reused_with_warning ⟨"17", "corretto", "3.9.5"⟩
      ⟨0, some "11.0.5", some "OpenJDK", "/opt/java11", none⟩
      ⟨0, some "3.6.3", some "/usr/share/maven"⟩ none none "linux" "x64").1
      (by decide) (by decide),
   (c8_incompatible_present_tool_reused_with_warning ⟨"17", "corretto", "3.9.5"⟩
      ⟨0, some "11.0.5", some "OpenJDK", "/opt/java11", none⟩
      ⟨0, some "3.6.3", some "/usr/share/maven"⟩ none none "linux" "x64").2
      (by decide) (by decide)⟩

/-! ## C5 -/

/-- C5: calling `save` twice consecutively with an unchanged cache key makes
exactly one backend `saveCache` call: the first save (starting from a
recorded state different from the key) succeeds, records the key, and the
second save reads the recorded key, performs no backend call, and returns
`false`. -/
theorem c5_second_save_is_noop (ci : CacheInputs) (st0 : String)
    (he : ci.cacheEnabled = true) (h0 : st0 ≠ cacheKeyOf ci) :
    (save ci true true st0).ret = true ∧
    (save ci true true (save ci true true st0).state).ret = false ∧
    ((save ci true true st0).effects ++
        (save ci true true (save ci true true st0).state).effects).filter Effect.isBackendSave =
      [.backendSave (cacheKeyOf ci)] ∧
    Effect.stateRead "cache-key" ∈ (save ci true true (save ci true true st0).state).effects := by
  have hb : (st0 == cacheKeyOf ci) = false := by
    simp [h0]
  have h1 : save ci true true st0 =
      ⟨true, cacheKeyOf ci,
        .dirStat "m2repository" :: manifestReadEffects ci ++ [.stateRead "cache-key"] ++
          [.backendSave (cacheKeyOf ci), .stateWrite "cache-key" (cacheKeyOf ci)]⟩ := by
    simp [save, he, hb]
  have h2 : save ci true true (cacheKeyOf ci) =
      ⟨false, cacheKeyOf ci,
        .dirStat "m2repository" :: manifestReadEffects ci ++ [.stateRead "cache-key"]⟩ := by
    simp [save, he]
  rw [h1]
  simp only [h2]
  have hcomp : (Effect.isBackendSave ∘ fun pf : String × String => Effect.fsReadManifest pf.1) =
      fun _ => false := rfl
  refine ⟨by simp, by simp, ?_, by simp⟩
  simp [List.filter_append, manifestReadEffects, List.filter_map, Effect.isBackendSave, hcomp]

/-- Witness for `c5_second_save_is_noop` at a concrete input. -/
theorem c5_second_save_is_noop_witness :
    (save ⟨true, "linux", "17", "3.9.5", [("pom.xml", "A")]⟩ true true "").ret = true ∧
    (save ⟨true, "linux", "17", "3.9.5", [("pom.xml", "A")]⟩ true true
        (save ⟨true, "linux", "17", "3.9.5", [("pom.xml", "A")]⟩ true true "").state).ret = false ∧
    ((save ⟨true, "linux", "17", "3.9.5", [("pom.xml", "A")]⟩ true true "").effects ++
        (save ⟨true, "linux", "17", "3.9.5", [("pom.xml", "A")]⟩ true true
          (save ⟨true, "linux", "17", "3.9.5", [("pom.xml", "A")]⟩ true true
            "").state).effects).filter Effect.isBackendSave =
      [.backendSave (cacheKeyOf ⟨true, "linux", "17", "3.9.5", [("pom.xml", "A")]⟩)] ∧
    Effect.stateRead "cache-key" ∈
      (save ⟨true, "linux", "17", "3.9.5", [("pom.xml", "A")]⟩ true true
        (save ⟨true, "linux", "17", "3.9.5", [("pom.xml", "A")]⟩ true true "").state).effects :=
  c5_second_save_is_noop ⟨true, "linux", "17", "3.9.5", [("pom.xml", "A")]⟩ ""
    rfl (by decide)

/-! ## C6 -/

/-- C6, counterexample: a `pom.xml` sitting directly inside a directory six
levels below the root is still returned (the recursion at depth 5 collects
poms of depth-6 child directories before the `depth > 5` cut stops it), so
"no manifest deeper than depth 5 is returned" fails; the readdir trace
stops at depth 5. -/
theorem c6_counterexample :
    ["a1", "a2", "a3", "a4", "a5", "a6", "pom.xml"] ∈
      (findPomFiles
        [.dir "a1" [.dir "a2" [.dir "a3" [.dir "a4" [.dir "a5"
          [.dir "a6" [.file "pom.xml"]]]]]]]).poms ∧
    (["a1", "a2", "a3", "a4", "a5", "a6", "pom.xml"].length - 1) > 5 := by
  decide

end MavenActions
